import Mathlib

/-!
Verification of the `argh` command-line parser header (`src/argh.h`) and its
example program (`src/main.cpp`).

The development is a shallow embedding of the C++ source: each C++ function is
translated into a Lean definition over explicit state.  `Option` results model
undefined behaviour (null-pointer dereference, out-of-bounds reads): `none`
means the C++ program has no defined result on that path.
-/

namespace Argh

/-- Conversion failure kinds: the two exception types thrown by the C++
`std::sto*` functions and caught in `Parameter::parseValue`
(`std::invalid_argument`, `std::out_of_range`). -/
inductive ConvErr where
  | invalidArgument
  | outOfRange
deriving DecidableEq

/-- The heterogeneous value space of the parameter types instantiated by the
source (`bool`, `int`, `float`/`double`, `const char*` / `std::string`).
C++ floating-point values are modelled as exact rationals. -/
inductive Value where
  | vBool (b : Bool)
  | vInt (n : Int)
  | vFloat (q : Rat)
  | vStr (s : String)
deriving DecidableEq

/-- The template argument of `Parameter<ValueT>` for the instantiations the
source uses. -/
inductive PType where
  | tBool
  | tInt
  | tFloat
  | tStr
deriving DecidableEq

/-- Characters accepted by `isspace` in the "C" locale; `strtol`/`strtof`
(hence `std::stoi`/`std::stof`) skip a run of these first. -/
def isSpaceChar (c : Char) : Bool :=
  c = ' ' || c = '\t' || c = '\n' || c = '\x0b' || c = '\x0c' || c = '\r'

/-- Decimal digit test used by the `strtol` model. -/
def isDigitChar (c : Char) : Bool :=
  '0' ≤ c && c ≤ '9'

/-- Leading-sign handling of `strtol`/`strtof`: at most one '+' or '-' is
consumed; the first component is the resulting sign factor. -/
def splitSign (l : List Char) : Int × List Char :=
  match l with
  | c :: r => if c = '+' then (1, r) else if c = '-' then (-1, r) else (1, l)
  | [] => (1, l)

/-- Numeric value of a decimal digit character. -/
def digitVal (c : Char) : Nat := c.toNat - 48

/-- Value of a digit run, most significant first. -/
def digitsToNat (ds : List Char) : Nat :=
  ds.foldl (fun a c => 10 * a + digitVal c) 0

/-- The maximal digit run `strtol` consumes in `s` after leading whitespace
and an optional sign. -/
def stoiDigits (s : String) : List Char :=
  ((splitSign (s.data.dropWhile isSpaceChar)).2).takeWhile isDigitChar

/-- The signed value of that run (0 when the run is empty). -/
def stoiVal (s : String) : Int :=
  (splitSign (s.data.dropWhile isSpaceChar)).1 * (digitsToNat (stoiDigits s) : Int)

/-- INT_MIN for the 32-bit `int` that `fromStr<int>` targets. -/
def intMin : Int := -(2 ^ 31)

/-- INT_MAX for the 32-bit `int` that `fromStr<int>` targets. -/
def intMax : Int := 2 ^ 31 - 1

/-- `fromStr<int>`, i.e. `std::stoi`: `strtol` reads the longest decimal run
after optional whitespace and sign and ignores anything that follows; no
digits at all raises `invalid_argument`; a value outside `int` raises
`out_of_range`. -/
def fromStrInt (s : String) : Except ConvErr Int :=
  if stoiDigits s = [] then .error .invalidArgument
  else if stoiVal s < intMin ∨ intMax < stoiVal s then .error .outOfRange
  else .ok (stoiVal s)

/-- Integer power of ten as a rational (negative exponents allowed). -/
def pow10 (e : Int) : Rat :=
  if 0 ≤ e then (10 : Rat) ^ e.toNat else 1 / (10 : Rat) ^ (-e).toNat

/-- Mantissa of a `strtof`-style literal: digits, optionally a '.' and more
digits; `none` when no mantissa digit is present.  Returns the exact rational
value and the unconsumed rest. -/
def mantissa (cs : List Char) : Option (Rat × List Char) :=
  let ip := cs.takeWhile isDigitChar
  let r1 := cs.dropWhile isDigitChar
  match r1 with
  | '.' :: r2 =>
      let fp := r2.takeWhile isDigitChar
      let r3 := r2.dropWhile isDigitChar
      if ip.isEmpty && fp.isEmpty then none
      else some ((digitsToNat ip : Rat) + (digitsToNat fp : Rat) / pow10 fp.length, r3)
  | _ => if ip.isEmpty then none else some ((digitsToNat ip : Rat), r1)

/-- Exponent part of a `strtof`-style literal: `e`/`E`, optional sign, digits;
an exponent marker without digits is not consumed (factor 0 here means
exponent 0). -/
def expPart (cs : List Char) : Int :=
  match cs with
  | c :: r =>
      if c = 'e' ∨ c = 'E' then
        let sr := splitSign r
        let ds := sr.2.takeWhile isDigitChar
        if ds.isEmpty then 0 else sr.1 * (digitsToNat ds : Int)
      else 0
  | [] => 0

/-- FLT_MAX as an exact rational: `2^128 - 2^104`. -/
def fltMax : Rat := (2 : Rat) ^ 128 - (2 : Rat) ^ 104

/-- `fromStr<float>`, i.e. `std::stof`: prefix parse of a decimal literal with
optional fraction and exponent, exact-rational value.  IEEE rounding, hex
literals, inf/nan spellings and underflow reporting are not modelled; no
theorem below evaluates this function. -/
def fromStrFloat (s : String) : Except ConvErr Rat :=
  let cs := s.data.dropWhile isSpaceChar
  let sr := splitSign cs
  match mantissa sr.2 with
  | none => .error .invalidArgument
  | some mr =>
      let v := (sr.1 : Rat) * mr.1 * pow10 (expPart mr.2)
      if v < -fltMax ∨ fltMax < v then .error .outOfRange else .ok v

/-- The `fromStr<T>` family of `argh.h`.  The argument is the raw
`const char*`: `none` models the null pointer (e.g. `argv[argc]`).
`fromStr<bool>` ignores its argument entirely and returns `true`; handing a
null pointer to `std::sto*` or to a `std::string` conversion is undefined
behaviour, modelled as an outer `none`. -/
def fromStr : PType → Option String → Option (Except ConvErr Value)
  | .tBool, _ => some (.ok (.vBool true))
  | .tInt, some s => some ((fromStrInt s).map .vInt)
  | .tInt, none => none
  | .tFloat, some s => some ((fromStrFloat s).map .vFloat)
  | .tFloat, none => none
  | .tStr, some s => some (.ok (.vStr s))
  | .tStr, none => none

/-- `Parameter<T>::parseErr_` (the POD `argh::ParseError`): description and
offending source token, both null-initialised.  The `details` member holds the
C++ library's `what()` text, which is implementation-defined and not
modelled. -/
structure ParseErrRec where
  desc : Option String
  source : Option String
deriving DecidableEq

/-- The `{nullptr, nullptr, nullptr}` initial value of `parseErr_`. -/
def noErr : ParseErrRec := { desc := none, source := none }

/-- One registered `Parameter<T>` together with the caller-owned storage its
`output_` pointer refers to.  `field` models `*output_` (`none` = the caller
never initialised it / it holds a null pointer); `isSet` models
`ParamInfo::isSet_`, which is initialised `false` and never updated by any
code path in the header. -/
structure ParamEntry where
  key : Char
  name : String
  helpText : String
  ptype : PType
  hasDef : Bool
  defVal : Value
  isSet : Bool
  field : Option Value
  parseErr : ParseErrRec
deriving DecidableEq

/-- `Parameter<T>::parseValue`: assigns `fromStr<T>(valStr)` through
`output_`; `std::invalid_argument` / `std::out_of_range` are caught, fill
`parseErr_` and yield `false`; otherwise `true`.  The outer `none` propagates
undefined behaviour from `fromStr`. -/
def ParamEntry.parseValue (p : ParamEntry) (val : Option String) :
    Option (Bool × ParamEntry) :=
  match fromStr p.ptype val with
  | none => none
  | some (.ok v) => some (true, { p with field := some v })
  | some (.error .invalidArgument) =>
      some (false, { p with parseErr := { desc := some ("Invalid Argument"), source := val } })
  | some (.error .outOfRange) =>
      some (false, { p with parseErr := { desc := some ("Value Out of Range"), source := val } })

/-- `Parser::ParseError`, the nested class whose instances populate
`Parser::errors_`.  No statement in the header ever appends to `errors_`. -/
structure EngineError where
  desc : String
  srcArgv : Nat
deriving DecidableEq

/-- The `Parser` object: `argv_` (borrowed; index 0 is the program name),
the key-indexed array `params_` (`none` = null slot, as value-initialised by
the constructor), and `errors_`. -/
structure ParserState where
  argv : List String
  params : Char → Option ParamEntry
  errors : List EngineError

/-- The all-null `params_` array the `Parser` constructor produces. -/
def emptyParams : Char → Option ParamEntry := fun _ => none

/-- `Parser::addParam`: `params_[(int)param->key()] = param;`.  Total: an
occupied slot is silently overwritten, nothing is checked, and nothing is
indexed by long name. -/
def Parser.addParam (ps : Char → Option ParamEntry) (p : ParamEntry) :
    Char → Option ParamEntry :=
  fun c => if c = p.key then some p else ps c

/-- Registration of a list of parameters in order (`Args::arg` forwards each
declaration to `Parser::addParam`). -/
def registerAll (ps : Char → Option ParamEntry) (l : List ParamEntry) :
    Char → Option ParamEntry :=
  l.foldl Parser.addParam ps

/-- `Parser::parse`, exactly as written: it reads `argv_[1][0]` (the NUL
terminator when `argv_[1]` is empty), uses that single character to index
`params_`, calls `parseValue(argv_[2])` through the resulting pointer (only
the success-print is conditional on the result), and returns `false`
unconditionally; `errors_` is never touched and no further token is visited.
`none` models the undefined-behaviour paths: missing `argv_[1]`, a null
`params_` slot (null virtual call), or a null value pointer reaching a
`std::sto*`/`std::string` conversion. -/
def Parser.parse (st : ParserState) : Option (Bool × ParserState) :=
  match st.argv.get? 1 with
  | none => none
  | some a1 =>
      match st.params (a1.data.headD (Char.ofNat 0)) with
      | none => none
      | some p =>
          match p.parseValue (st.argv.get? 2) with
          | none => none
          | some res =>
              some (false,
                { st with params := fun c2 =>
                    if c2 = a1.data.headD (Char.ofNat 0) then some res.2 else st.params c2 })

/-- `std::setw`-style padding: `width(w)` with `std::left` pads the next
insertion on the right with spaces to at least `w` characters. -/
def padTo (w : Nat) (s : String) : String :=
  s ++ String.mk (List.replicate (w - s.length) ' ')

/-- Fractional digits of `q ∈ [0,1)`, at most `n` of them, stopping at zero
(models the trailing-zero trimming of default float output). -/
def fracDigitsAux : Nat → Rat → List Char
  | 0, _ => []
  | n + 1, q =>
      if q = 0 then []
      else
        let d := (q * 10).floor
        Char.ofNat (48 + d.toNat) :: fracDigitsAux n (q * 10 - (d : Rat))

/-- Default `operator<<` rendering of a float value, modelled for values whose
decimal expansion terminates within six fractional digits (the values used in
this development); rounding of longer expansions is not modelled. -/
def renderRat (q : Rat) : String :=
  let sgn := if q < 0 then "-" else ""
  let a := |q|
  let ds := fracDigitsAux 6 (a - (a.floor : Rat))
  if ds.isEmpty then sgn ++ toString a.floor
  else sgn ++ toString a.floor ++ "." ++ String.mk ds

/-- `operator<<` rendering of a stored default value (`ss << defVal_`): bool
streams as `1`/`0` (no `boolalpha`), ints in decimal, strings as-is. -/
def renderValue : Value → String
  | .vBool b => if b then "1" else "0"
  | .vInt n => toString n
  | .vFloat q => renderRat q
  | .vStr s => s

/-- `Parameter<T>::help`: three left-justified columns of minimum widths 5, 14
and 24 — `" -k"`, `"  --name"`, and `"[default: v] "` only when a default was
supplied (an empty third column is still padded to 24) — then the help text
and `std::endl`. -/
def ParamEntry.helpLine (p : ParamEntry) : String :=
  padTo 5 (" -" ++ String.mk [p.key]) ++
  padTo 14 ("  --" ++ p.name) ++
  padTo 24 (if p.hasDef then "[default: " ++ renderValue p.defVal ++ "] " else "") ++
  p.helpText ++ "\n"

/-- The range-for over `params_` in `Args::usage` and `Args::help`: the 256
array slots in index order, null slots skipped. -/
def paramList (ps : Char → Option ParamEntry) : List ParamEntry :=
  (List.range 256).filterMap (fun n => ps (Char.ofNat n))

/-- `Args::usage`: `"Usage: proc -"`, every registered key in slot order, then
`" <remainder>"`.  (The stray `s.operator basic_string_view()` statement in
the source is a no-op on a local and is not modelled.) -/
def Args.usage (procName remainderName : String)
    (ps : Char → Option ParamEntry) : String :=
  "Usage: " ++ procName ++ " -" ++ String.mk ((paramList ps).map ParamEntry.key) ++
    " <" ++ remainderName ++ ">"

/-- The per-parameter block of `Args::help`: the help lines in slot order. -/
def Args.helpBody (ps : Char → Option ParamEntry) : String :=
  String.join ((paramList ps).map ParamEntry.helpLine)

/-- `Args::help`: the usage line, `endl`, the per-parameter block, `endl`. -/
def Args.help (procName remainderName : String)
    (ps : Char → Option ParamEntry) : String :=
  Args.usage procName remainderName ps ++ "\n" ++ Args.helpBody ps ++ "\n"

/-! The registration performed by `main.cpp`: five parameters bound to the
fields of the zero-initialised global `gOptions` (null `const char*` fields
are `none`; `float` zero is `vFloat 0`; `bool` zero is `vBool false`). -/

/-- `a.arg(&gOptions.infile, 'i', "input", "Specify the input file", "./in.foo")`. -/
def pInput : ParamEntry :=
  { key := 'i', name := "input", helpText := "Specify the input file", ptype := .tStr,
    hasDef := true, defVal := .vStr ("./in.foo"), isSet := false, field := none,
    parseErr := noErr }

/-- `a.arg(&gOptions.tmppath, 't', "temp", "Path for temporary files", "/tmp/")`. -/
def pTemp : ParamEntry :=
  { key := 't', name := "temp", helpText := "Path for temporary files", ptype := .tStr,
    hasDef := true, defVal := .vStr ("/tmp/"), isSet := false, field := none,
    parseErr := noErr }

/-- `a.arg(&gOptions.rate, 'r', "rate", "Rate of enytopy", 0.75f)`. -/
def pRate : ParamEntry :=
  { key := 'r', name := "rate", helpText := "Rate of enytopy", ptype := .tFloat,
    hasDef := true, defVal := .vFloat (0.75 : Rat), isSet := false,
    field := some (.vFloat 0), parseErr := noErr }

/-- `a.arg(&gOptions.debug, 'd', "debug", "Start in daemon mode")` — the
no-default constructor value-initialises `defVal_` (`false` for `bool`). -/
def pDebug : ParamEntry :=
  { key := 'd', name := "debug", helpText := "Start in daemon mode", ptype := .tBool,
    hasDef := false, defVal := .vBool false, isSet := false,
    field := some (.vBool false), parseErr := noErr }

/-- `a.arg(&gOptions.verbose, 'v', "verbose", "Level of verbosity")`. -/
def pVerbose : ParamEntry :=
  { key := 'v', name := "verbose", helpText := "Level of verbosity", ptype := .tBool,
    hasDef := false, defVal := .vBool false, isSet := false,
    field := some (.vBool false), parseErr := noErr }

/-- The `params_` array after `main.cpp`'s five registrations. -/
def mainParams : Char → Option ParamEntry :=
  registerAll emptyParams [pInput, pTemp, pRate, pDebug, pVerbose]

/-- The parser state of `main.cpp` right before `a.parse()`, for a given
command line. -/
def mainState (argv : List String) : ParserState :=
  { argv := argv, params := mainParams, errors := [] }

/-! ## Claim C1 -/

/-- C1: `parse` is claimed to return true iff the error list is empty, with
fields written and the remainder collected.  In the code, `parse` returns
`false` unconditionally on every defined path and never touches `errors_`
(and no remainder is collected at all — the remainder index member is
commented out), so the claimed equivalence fails whenever `parse` returns at
all: the error list is still the initial one (empty in `main.cpp`) yet the
result is `false`. -/
theorem C1_parse_always_false_errors_untouched (st : ParserState)
    (r : Bool × ParserState) (h : Parser.parse st = some r) :
    r.1 = false ∧ r.2.errors = st.errors := by
  unfold Parser.parse at h
  split at h
  · exact absurd h (by simp)
  · split at h
    · exact absurd h (by simp)
    · split at h
      · exact absurd h (by simp)
      · simp only [Option.some.injEq] at h
        subst h
        exact ⟨rfl, rfl⟩

/-- The state of `main.cpp` run as `./foo d x` (first token chosen so that the
stub's single-character lookup finds the `debug` parameter and `parse`
terminates normally). -/
def stC1 : ParserState := mainState ["./foo", "d", "x"]

/-- The defined result `parse` produces on `stC1`. -/
def resC1 : Bool × ParserState := (Parser.parse stC1).getD (true, stC1)

/-- C1 witness: on the concrete run `./foo d x` the scan succeeds, the error
list is empty, and `parse` still returns `false`. -/
theorem C1_witness : resC1.1 = false ∧ resC1.2.errors = stC1.errors :=
  C1_parse_always_false_errors_untouched stC1 resC1 rfl

/-! ## Claim C2 -/

/-- The documented example command line of `argh.h` (also the spec's concrete
scenario), under `main.cpp`'s registration. -/
def stC2 : ParserState :=
  mainState ["./foo", "-dvi", "/input/file", "-t=/tmp/path/", "--rate", "0.9", "/output/file"]

/-- C2: the spec's concrete scenario claims this command line yields
`debug=true, verbose=true, infile, tmppath, rate=0.9`, the remainder, and
`parse() = true`.  The code instead indexes `params_` with `'-'` (the first
character of `argv[1]`), finds the null slot and calls through it — undefined
behaviour (a crash), modelled as `none`; no token is ever scanned and no field
is set. -/
theorem C2_documented_example_crashes : Parser.parse stC2 = none := rfl

/-! ## Claim C3 -/

/-- The spec's concrete failure scenario `--rate=notanumber` under
`main.cpp`'s registration. -/
def stC3 : ParserState := mainState ["./foo", "--rate=notanumber"]

/-- C3: claimed: `parse()` false with exactly one `InvalidArgument` error
referencing `notanumber` and `rate` unchanged.  The code never reaches any
conversion: it indexes `params_` with `'-'`, hits the null slot and crashes
(`none`); moreover no code path ever appends to the error list, which stays
empty. -/
theorem C3_invalid_value_scenario_crashes :
    Parser.parse stC3 = none ∧ stC3.errors = [] := ⟨rfl, rfl⟩

/-! ## Claim C5 -/

/-- C5: claimed: a registered boolean flag's presence sets the field true and
consumes no extra token, in both short and long form.  Both forms begin with
`'-'`, so the stub looks up the null `params_['-']` slot and crashes (`none`)
before any field is written, for the short form `-d` and the long form
`--debug` alike. -/
theorem C5_bool_flag_forms_crash :
    Parser.parse (mainState ["./foo", "-d"]) = none ∧
    Parser.parse (mainState ["./foo", "--debug"]) = none := ⟨rfl, rfl⟩

/-! ## Claim C6 -/

/-- Unknown-key scenario `-x` (no parameter registered under `x`), followed by
further tokens the spec expects to still be processed. -/
def stC6 : ParserState := mainState ["./foo", "-x", "alpha", "beta"]

/-- C6: claimed: `-x` yields `parse()` false, exactly one `UnknownKey` error,
and scanning continues.  The code dereferences the null `params_['-']` slot
and crashes (`none`): no error is recorded (the error list is never appended
to) and the subsequent tokens are never visited. -/
theorem C6_unknown_key_crashes :
    Parser.parse stC6 = none ∧ stC6.errors = [] := ⟨rfl, rfl⟩

/-! ## Claim C8 -/

/-- `main.cpp` run as `./foo d y`: the `rate` parameter (default `0.75f`) is
never supplied on this command line. -/
def stC8 : ParserState := mainState ["./foo", "d", "y"]

/-- C8: claimed: an unsupplied parameter's field holds its registration-time
default after `parse()`.  The constructor's own comment says the default is
"copied to cfg_->*field member", but no code ever copies `defVal_` into the
output field and `parse` applies no defaults: after the run, `rate`'s field
still holds the caller's original `0`, not the stored default `0.75`. -/
theorem C8_default_never_copied_to_field :
    ((Parser.parse stC8).bind (fun r => r.2.params 'r')).map
        (fun p => (p.hasDef, p.defVal, p.field)) =
      some (true, Value.vFloat (0.75 : Rat), some (Value.vFloat 0)) ∧
    some (Value.vFloat 0) ≠ some (Value.vFloat (0.75 : Rat)) := by
  refine ⟨rfl, fun hEq => ?_⟩
  have h1 : Value.vFloat 0 = Value.vFloat (0.75 : Rat) := Option.some_inj.mp hEq
  have h2 : (0 : Rat) = 0.75 := by injection h1
  norm_num at h2

/-! ## Claim C10 -/

/-- C10: for every value string — and even for the null pointer —
`parseValue` on a boolean parameter returns true and writes `true` into the
target field: `fromStr<bool>` never inspects its argument and cannot throw. -/
theorem C10_bool_parseValue_always_true (p : ParamEntry) (val : Option String)
    (h : p.ptype = PType.tBool) :
    p.parseValue val = some (true, { p with field := some (Value.vBool true) }) := by
  unfold ParamEntry.parseValue
  rw [h]
  rfl

/-- C10 witness: the `debug` parameter of `main.cpp` on the content-bearing
string "false" still parses to `true`. -/
theorem C10_witness :
    pDebug.parseValue (some ("false")) =
      some (true, { pDebug with field := some (Value.vBool true) }) :=
  C10_bool_parseValue_always_true pDebug (some ("false")) rfl

/-! ## Claim C4 -/

/-- Spec-side definition (the claim's words, for comparison with the code): a
"well-formed decimal" is an optional single sign followed by one or more
digits and nothing else. -/
def specWellFormedDecimal (s : String) : Bool :=
  let sr := splitSign s.data
  !sr.2.isEmpty && sr.2.all isDigitChar

/-- The string has a decimal prefix in the `strtol` sense: optional
whitespace, an optional single sign, then at least one digit; anything may
follow. -/
def hasDecimalStart (s : String) : Prop :=
  ∃ ws sg ds rest : List Char,
    s.data = ws ++ (sg ++ (ds ++ rest)) ∧
    (∀ c ∈ ws, isSpaceChar c = true) ∧
    (sg = [] ∨ sg = ['+'] ∨ sg = ['-']) ∧
    ds ≠ [] ∧ (∀ c ∈ ds, isDigitChar c = true)

/-- A decimal digit is not whitespace. -/
theorem digit_not_space {c : Char} (h : isDigitChar c = true) : isSpaceChar c = false := by
  by_contra hs
  rw [Bool.not_eq_false] at hs
  unfold isSpaceChar at hs
  unfold isDigitChar at h
  rw [Bool.and_eq_true, decide_eq_true_eq, decide_eq_true_eq] at h
  simp only [Bool.or_eq_true, decide_eq_true_eq] at hs
  rcases hs with (((((hs | hs) | hs) | hs) | hs) | hs) <;> subst hs <;>
    exact absurd h.1 (by decide)

/-- A decimal digit is not the plus sign. -/
theorem digit_ne_plus {c : Char} (h : isDigitChar c = true) : c ≠ '+' := by
  rintro rfl
  exact absurd h (by decide)

/-- A decimal digit is not the minus sign. -/
theorem digit_ne_minus {c : Char} (h : isDigitChar c = true) : c ≠ '-' := by
  rintro rfl
  exact absurd h (by decide)

/-- Dropping a satisfying run from the front of an append skips it. -/
theorem dropWhile_append_all {p : Char → Bool} :
    ∀ {ws r : List Char}, (∀ c ∈ ws, p c = true) →
      (ws ++ r).dropWhile p = r.dropWhile p := by
  intro ws
  induction ws with
  | nil => intro r _; rfl
  | cons x t ih =>
      intro r h
      have hx : p x = true := h x (List.mem_cons_self x t)
      rw [List.cons_append, List.dropWhile_cons, if_pos hx]
      exact ih (fun c hc => h c (List.mem_cons_of_mem x hc))

/-- The `strtol` scan finds at least one digit exactly when the string has a
declarative decimal prefix. -/
theorem stoiDigits_ne_nil_iff (s : String) : stoiDigits s ≠ [] ↔ hasDecimalStart s := by
  constructor
  · intro h
    have hsplit := (List.takeWhile_append_dropWhile isSpaceChar s.data).symm
    unfold stoiDigits at h
    generalize hT : s.data.dropWhile isSpaceChar = t at h hsplit
    cases t with
    | nil => simp [splitSign] at h
    | cons c u =>
        by_cases hplus : c = '+'
        · subst hplus
          rw [show splitSign ('+' :: u) = (1, u) by simp [splitSign]] at h
          exact ⟨s.data.takeWhile isSpaceChar, ['+'], u.takeWhile isDigitChar,
            u.dropWhile isDigitChar,
            by rw [List.takeWhile_append_dropWhile, List.singleton_append]; exact hsplit,
            fun c' hc => List.mem_takeWhile_imp hc,
            Or.inr (Or.inl rfl), h,
            fun c' hc => List.mem_takeWhile_imp hc⟩
        · by_cases hminus : c = '-'
          · subst hminus
            rw [show splitSign ('-' :: u) = (-1, u) by simp [splitSign]] at h
            exact ⟨s.data.takeWhile isSpaceChar, ['-'], u.takeWhile isDigitChar,
              u.dropWhile isDigitChar,
              by rw [List.takeWhile_append_dropWhile, List.singleton_append]; exact hsplit,
              fun c' hc => List.mem_takeWhile_imp hc,
              Or.inr (Or.inr rfl), h,
              fun c' hc => List.mem_takeWhile_imp hc⟩
          · rw [show splitSign (c :: u) = (1, c :: u) by simp [splitSign, hplus, hminus]] at h
            exact ⟨s.data.takeWhile isSpaceChar, [], (c :: u).takeWhile isDigitChar,
              (c :: u).dropWhile isDigitChar,
              by rw [List.nil_append, List.takeWhile_append_dropWhile]; exact hsplit,
              fun c' hc => List.mem_takeWhile_imp hc,
              Or.inl rfl, h,
              fun c' hc => List.mem_takeWhile_imp hc⟩
  · rintro ⟨ws, sg, ds, rest, hEq, hws, hsg, hne, hdig⟩
    unfold stoiDigits
    rw [hEq, dropWhile_append_all hws]
    cases ds with
    | nil => exact absurd rfl hne
    | cons d ds' =>
        have hd : isDigitChar d = true := hdig d (List.mem_cons_self d ds')
        have hdnospace : ¬ (isSpaceChar d = true) := by
          rw [digit_not_space hd]
          exact Bool.false_ne_true
        rcases hsg with rfl | rfl | rfl
        · rw [List.nil_append, List.cons_append, List.dropWhile_cons, if_neg hdnospace,
            show splitSign (d :: (ds' ++ rest)) = (1, d :: (ds' ++ rest)) by
              simp [splitSign, digit_ne_plus hd, digit_ne_minus hd],
            List.takeWhile_cons, if_pos hd]
          exact List.cons_ne_nil d _
        · rw [List.singleton_append, List.dropWhile_cons,
            if_neg (by decide : ¬ (isSpaceChar '+' = true)),
            show splitSign ('+' :: ((d :: ds') ++ rest)) = (1, (d :: ds') ++ rest) by
              simp [splitSign],
            List.cons_append, List.takeWhile_cons, if_pos hd]
          exact List.cons_ne_nil d _
        · rw [List.singleton_append, List.dropWhile_cons,
            if_neg (by decide : ¬ (isSpaceChar '-' = true)),
            show splitSign ('-' :: ((d :: ds') ++ rest)) = (-1, (d :: ds') ++ rest) by
              simp [splitSign],
            List.cons_append, List.takeWhile_cons, if_pos hd]
          exact List.cons_ne_nil d _

/-- C4 counterexample: `"12abc"` is not a well-formed decimal, yet the integer
conversion does not fail with invalid-argument as claimed — `std::stoi`
ignores the trailing characters and succeeds with 12. -/
theorem C4_counterexample :
    specWellFormedDecimal ("12abc") = false ∧ fromStrInt ("12abc") = Except.ok 12 :=
  ⟨rfl, rfl⟩

/-- The catch blocks' description strings, by failure kind. -/
def ConvErr.descText : ConvErr → String
  | .invalidArgument => "Invalid Argument"
  | .outOfRange => "Value Out of Range"

/-- C4 amended: integer conversion fails with invalid-argument exactly when
the string has no decimal prefix (optional whitespace, optional sign, at least
one digit); fails with out-of-range exactly when it has one whose value lies
outside 32-bit `int`; otherwise it succeeds with the prefix's value, ignoring
trailing characters; and on either failure `parseValue` records the offending
token (and the kind's description) in the parameter's error record. -/
theorem C4_amended_stoi_classification (s : String) :
    (fromStrInt s = Except.error ConvErr.invalidArgument ↔ ¬ hasDecimalStart s) ∧
    (fromStrInt s = Except.error ConvErr.outOfRange ↔
      hasDecimalStart s ∧ (stoiVal s < intMin ∨ intMax < stoiVal s)) ∧
    (fromStrInt s = Except.ok (stoiVal s) ↔
      hasDecimalStart s ∧ ¬ (stoiVal s < intMin ∨ intMax < stoiVal s)) ∧
    (∀ p : ParamEntry, ∀ e : ConvErr, p.ptype = PType.tInt →
      fromStrInt s = Except.error e →
      p.parseValue (some s) =
        some (false, { p with
          parseErr := { desc := some (ConvErr.descText e), source := some s } })) := by
  have hiff := stoiDigits_ne_nil_iff s
  by_cases hd : stoiDigits s = []
  · have hfe : fromStrInt s = Except.error ConvErr.invalidArgument := by
      unfold fromStrInt
      rw [if_pos hd]
    have hnot : ¬ hasDecimalStart s := fun hh => (hiff.mpr hh) hd
    refine ⟨⟨fun _ => hnot, fun _ => hfe⟩, ⟨?_, ?_⟩, ⟨?_, ?_⟩, ?_⟩
    · intro hc
      rw [hfe] at hc
      exact absurd hc (by simp)
    · rintro ⟨hh, _⟩
      exact absurd hh hnot
    · intro hc
      rw [hfe] at hc
      exact absurd hc (by simp)
    · rintro ⟨hh, _⟩
      exact absurd hh hnot
    · intro p e hp hfe2
      rw [hfe] at hfe2
      injection hfe2 with he
      subst he
      unfold ParamEntry.parseValue
      rw [hp]
      simp only [fromStr, hfe]
      rfl
  · have hhas : hasDecimalStart s := hiff.mp hd
    by_cases hr : stoiVal s < intMin ∨ intMax < stoiVal s
    · have hfe : fromStrInt s = Except.error ConvErr.outOfRange := by
        unfold fromStrInt
        rw [if_neg hd, if_pos hr]
      refine ⟨⟨?_, ?_⟩, ⟨fun _ => ⟨hhas, hr⟩, fun _ => hfe⟩, ⟨?_, ?_⟩, ?_⟩
      · intro hc
        rw [hfe] at hc
        exact absurd hc (by simp)
      · intro hnot
        exact absurd hhas hnot
      · intro hc
        rw [hfe] at hc
        exact absurd hc (by simp)
      · rintro ⟨_, hnr⟩
        exact absurd hr hnr
      · intro p e hp hfe2
        rw [hfe] at hfe2
        injection hfe2 with he
        subst he
        unfold ParamEntry.parseValue
        rw [hp]
        simp only [fromStr, hfe]
        rfl
    · have hfe : fromStrInt s = Except.ok (stoiVal s) := by
        unfold fromStrInt
        rw [if_neg hd, if_neg hr]
      refine ⟨⟨?_, ?_⟩, ⟨?_, ?_⟩, ⟨fun _ => ⟨hhas, hr⟩, fun _ => hfe⟩, ?_⟩
      · intro hc
        rw [hfe] at hc
        exact absurd hc (by simp)
      · intro hnot
        exact absurd hhas hnot
      · intro hc
        rw [hfe] at hc
        exact absurd hc (by simp)
      · rintro ⟨_, hr2⟩
        exact absurd hr2 hr
      · intro p e hp hfe2
        rw [hfe] at hfe2
        exact absurd hfe2 (by simp)

/-- A test integer parameter (as `Args::arg` would build for an `int` field,
no default). -/
def pNum : ParamEntry :=
  { key := 'n', name := "num", helpText := "test integer parameter", ptype := .tInt,
    hasDef := false, defVal := .vInt 0, isSet := false, field := none,
    parseErr := noErr }

/-- C4 witness: `"123456789012"` has a decimal prefix whose value exceeds
INT_MAX, so conversion fails out-of-range and `parseValue` records the
offending token. -/
theorem C4_witness :
    fromStrInt ("123456789012") = Except.error ConvErr.outOfRange ∧
    pNum.parseValue (some ("123456789012")) =
      some (false, { pNum with
        parseErr := { desc := some (ConvErr.descText ConvErr.outOfRange),
                      source := some ("123456789012") } }) := by
  have h := C4_amended_stoi_classification ("123456789012")
  have hhas : hasDecimalStart ("123456789012") :=
    ⟨[], [], ("123456789012").data, [], by simp, by simp, Or.inl rfl, by decide, by decide⟩
  have hoor := h.2.1.mpr ⟨hhas, Or.inr (by decide)⟩
  exact ⟨hoor, h.2.2.2 pNum ConvErr.outOfRange rfl hoor⟩

/-! ## Claim C7 -/

/-- A first parameter registered under key `d`. -/
def pDup1 : ParamEntry :=
  { key := 'd', name := "debug", helpText := "first registration", ptype := .tBool,
    hasDef := false, defVal := .vBool false, isSet := false, field := none,
    parseErr := noErr }

/-- A second, distinct parameter colliding on key `d`. -/
def pDup2 : ParamEntry := { pDup1 with helpText := "second registration" }

/-- C7 counterexample: claimed: a second registration colliding on key fails
at registration time with a duplicate-registration error.  `addParam` has no
failure channel at all: registering `pDup2` after `pDup1` simply succeeds and
silently replaces the first entry in the slot. -/
theorem C7_counterexample :
    Parser.addParam (Parser.addParam emptyParams pDup1) pDup2 'd' = some pDup2 ∧
    pDup2 ≠ pDup1 := ⟨rfl, by decide⟩

/-- C7 amended: registration never fails; a colliding key silently overwrites:
registering `p` and then `q` with the same key leaves exactly the registry of
registering `q` alone — the earlier parameter is dropped without any error
(and long names are not indexed at registration at all). -/
theorem C7_amended_duplicate_key_overwrites (ps : Char → Option ParamEntry)
    (p q : ParamEntry) (h : q.key = p.key) :
    Parser.addParam (Parser.addParam ps p) q = Parser.addParam ps q := by
  funext c
  unfold Parser.addParam
  by_cases hc : c = q.key
  · rw [if_pos hc, if_pos hc]
  · rw [if_neg hc, if_neg hc, if_neg (h ▸ hc)]

/-- C7 witness: the two colliding `d` registrations above collapse to the
second one alone. -/
theorem C7_witness :
    Parser.addParam (Parser.addParam emptyParams pDup1) pDup2 =
      Parser.addParam emptyParams pDup2 :=
  C7_amended_duplicate_key_overwrites emptyParams pDup1 pDup2 rfl

/-! ## Claim C9 -/

/-- Registering two parameters with distinct keys commutes. -/
theorem addParam_swap (ps : Char → Option ParamEntry) {p q : ParamEntry}
    (h : p.key ≠ q.key) :
    Parser.addParam (Parser.addParam ps p) q = Parser.addParam (Parser.addParam ps q) p := by
  funext c
  unfold Parser.addParam
  by_cases hq : c = q.key
  · have hp : ¬ c = p.key := fun hc => h ((hc.symm.trans hq).symm ▸ rfl)
    rw [if_pos hq, if_neg hp, if_pos hq]
  · by_cases hp : c = p.key
    · rw [if_neg hq, if_pos hp, if_pos hp]
    · rw [if_neg hq, if_neg hp, if_neg hp, if_neg hq]

/-- With pairwise-distinct keys, the final registry does not depend on the
registration order. -/
theorem registerAll_perm {l₁ l₂ : List ParamEntry} (hp : l₁.Perm l₂) :
    ∀ (_ : (l₁.map ParamEntry.key).Nodup) (ps : Char → Option ParamEntry),
      registerAll ps l₁ = registerAll ps l₂ := by
  induction hp with
  | nil => intro _ _; rfl
  | cons x hpt ih =>
      intro hnd ps
      simp only [registerAll, List.foldl_cons]
      exact ih (by simpa [List.nodup_cons] using (List.nodup_cons.mp (by simpa using hnd)).2)
        (Parser.addParam ps x)
  | swap x y l =>
      intro hnd ps
      simp only [registerAll, List.foldl_cons]
      have hyx : y.key ≠ x.key := by
        simp only [List.map_cons, List.nodup_cons, List.mem_cons] at hnd
        exact fun he => hnd.1 (Or.inl he)
      rw [addParam_swap ps hyx]
  | trans h₁ h₂ ih₁ ih₂ =>
      intro hnd ps
      rw [ih₁ hnd ps, ih₂ (((h₁.map ParamEntry.key).nodup_iff).mp hnd) ps]

/-- Registries built by `addParam` from the empty array store every parameter
at its own key slot. -/
theorem registerAll_consistent (l : List ParamEntry) :
    ∀ (ps : Char → Option ParamEntry),
      (∀ c p, ps c = some p → p.key = c) →
      ∀ c p, registerAll ps l c = some p → p.key = c := by
  induction l with
  | nil => intro ps hps; exact hps
  | cons x t ih =>
      intro ps hps c p h
      refine ih (Parser.addParam ps x) ?_ c p h
      intro c' p' h'
      unfold Parser.addParam at h'
      by_cases hc : c' = x.key
      · rw [if_pos hc] at h'
        injection h' with h2
        subst h2
        exact hc.symm
      · rw [if_neg hc] at h'
        exact hps c' p' h'

/-- Pairwise relations survive `filterMap` when related through the
extraction. -/
theorem pairwise_filterMap_aux {α β : Type} {R : β → β → Prop} {f : α → Option β} :
    ∀ {l : List α},
      l.Pairwise (fun a b => ∀ x, f a = some x → ∀ y, f b = some y → R x y) →
      (l.filterMap f).Pairwise R := by
  intro l
  induction l with
  | nil => intro _; simp
  | cons a t ih =>
      intro h
      rcases hfa : f a with _ | b
      · rw [List.filterMap_cons, hfa]
        exact ih h.of_cons
      · rw [List.filterMap_cons, hfa]
        refine List.Pairwise.cons ?_ (ih h.of_cons)
        intro y hy
        rcases List.mem_filterMap.mp hy with ⟨x, hx, hfx⟩
        exact (List.pairwise_cons.mp h).1 x hx b hfa y hfx

set_option maxRecDepth 2000 in
/-- `Char.ofNat` is the identity on the 256 array-slot codes. -/
theorem charOfNat_toNat : ∀ n, n < 256 → (Char.ofNat n).toNat = n := by decide

/-- In a consistent registry, the help/usage iteration yields parameters in
strictly increasing key order (the array's slot order). -/
theorem paramList_keys_sorted (ps : Char → Option ParamEntry)
    (hcons : ∀ c p, ps c = some p → p.key = c) :
    ((paramList ps).map (fun p => p.key.toNat)).Pairwise (· < ·) := by
  unfold paramList
  rw [List.map_filterMap]
  apply pairwise_filterMap_aux
  refine (List.pairwise_lt_range 256).imp_of_mem ?_
  intro n m hn hm hlt x hx y hy
  rcases Option.map_eq_some'.mp hx with ⟨p, hp, rfl⟩
  rcases Option.map_eq_some'.mp hy with ⟨q, hq, rfl⟩
  rw [hcons _ _ hp, hcons _ _ hq,
    charOfNat_toNat n (List.mem_range.mp hn), charOfNat_toNat m (List.mem_range.mp hm)]
  exact hlt

/-- A boolean parameter registered first, under the late key `z`. -/
def pZeta : ParamEntry :=
  { key := 'z', name := "zeta", helpText := "Z flag", ptype := .tBool,
    hasDef := false, defVal := .vBool false, isSet := false, field := none,
    parseErr := noErr }

/-- A string parameter registered second, under the early key `a`. -/
def pAlpha : ParamEntry :=
  { key := 'a', name := "alpha", helpText := "A value", ptype := .tStr,
    hasDef := true, defVal := .vStr ("aaa"), isSet := false, field := none,
    parseErr := noErr }

/-- C9 counterexample: registering `pZeta` then `pAlpha`, the help block
renders `pAlpha`'s line first — the key-indexed array's slot order — which
differs from the claimed registration order. -/
theorem C9_counterexample :
    Args.helpBody (registerAll emptyParams [pZeta, pAlpha]) =
      ParamEntry.helpLine pAlpha ++ ParamEntry.helpLine pZeta ∧
    ParamEntry.helpLine pAlpha ++ ParamEntry.helpLine pZeta ≠
      ParamEntry.helpLine pZeta ++ ParamEntry.helpLine pAlpha := by
  constructor
  · rfl
  · decide

/-- C9 amended: the help rendering produces one fixed-column line per
registered parameter — short key, long name, a default annotation only when a
default was supplied, and the help text — but in ascending order of the
short key's character code (the `params_` array's slot order), independent of
the registration order, rather than in registration order. -/
theorem C9_amended_help_slot_order (l₁ l₂ : List ParamEntry) (hp : l₁.Perm l₂)
    (hnd : (l₁.map ParamEntry.key).Nodup) :
    Args.helpBody (registerAll emptyParams l₁) =
      Args.helpBody (registerAll emptyParams l₂) ∧
    ((paramList (registerAll emptyParams l₁)).map (fun p => p.key.toNat)).Pairwise (· < ·) ∧
    Args.helpBody (registerAll emptyParams l₁) =
      String.join ((paramList (registerAll emptyParams l₁)).map ParamEntry.helpLine) := by
  refine ⟨congrArg Args.helpBody (registerAll_perm hp hnd emptyParams), ?_, rfl⟩
  exact paramList_keys_sorted _
    (registerAll_consistent l₁ emptyParams (fun c p h => Option.noConfusion h))

/-- C9 witness: the two-parameter registries `[pZeta, pAlpha]` and
`[pAlpha, pZeta]` render the same help block, in ascending key order. -/
theorem C9_witness :
    Args.helpBody (registerAll emptyParams [pZeta, pAlpha]) =
      Args.helpBody (registerAll emptyParams [pAlpha, pZeta]) ∧
    ((paramList (registerAll emptyParams [pZeta, pAlpha])).map
        (fun p => p.key.toNat)).Pairwise (· < ·) ∧
    Args.helpBody (registerAll emptyParams [pZeta, pAlpha]) =
      String.join ((paramList (registerAll emptyParams [pZeta, pAlpha])).map
        ParamEntry.helpLine) := by
  have h := C9_amended_help_slot_order [pZeta, pAlpha] [pAlpha, pZeta]
    (List.Perm.swap pAlpha pZeta []) (by decide)
  exact h

end Argh
